import Mathlib

/-!
Verification of the query-orchestration core of the flight-ibe api-server.

The Rust sources are embedded shallowly: machine integers become `Nat`
(with explicit truncating subtraction and integer division where the source
has them), `tokio::time::Instant` becomes a `Nat` count of milliseconds
(seconds where the source sleeps in seconds), fallible calls become
`Except`/`Option` values, and the network is an explicit parameter holding
the responses the upstream would deliver.  Stateful components (the rate
limiter, the token cache) are explicit state-passing functions; the
token-refresh race is a small-step interleaving machine.
-/

/-! ## Rate limiter (crates/api-server/src/rate_limiter.rs)

The source stores `last_request : Arc<Mutex<Option<Instant>>>` and
`interval_ms : u64`.  `wait` locks the mutex, sleeps `interval - elapsed`
when the elapsed time since `last_request` is below the interval, then
records `Instant::now()` (the wake-up instant) and returns.  Time is
modelled in milliseconds; the wake-up instant of an ideal sleep is
`last + interval`. -/

structure RateLimiter where
  last_request : Option Nat
  interval_ms : Nat
deriving Repr, DecidableEq

/-- Embeds `RateLimiter::new` (rate_limiter.rs:25-31).  The source computes
`1000 / tps` with `u64` division and no validation of `tps`; Rust integer
division by zero panics, which the embedding renders as `none`.  There is no
graceful-rejection path: the source returns `Self`, not `Result`. -/
def RateLimiter.new (tps : Nat) : Option RateLimiter :=
  if tps = 0 then none
  else some { last_request := none, interval_ms := 1000 / tps }

/-- Dispatch instant chosen by `wait` (rate_limiter.rs:36-49) when called at
instant `now`: with no recorded request it proceeds immediately; otherwise it
sleeps until `last + interval` whenever the elapsed time is short.  (`elapsed`
is `now - last`, truncating like the monotone-clock subtraction.) -/
def RateLimiter.dispatchTime (rl : RateLimiter) (now : Nat) : Nat :=
  match rl.last_request with
  | none => now
  | some l => if now - l < rl.interval_ms then l + rl.interval_ms else now

/-- Embeds `RateLimiter::wait` (rate_limiter.rs:36-49): returns the dispatch
instant and the state with that instant recorded in `last_request`. -/
def RateLimiter.wait (rl : RateLimiter) (now : Nat) : Nat × RateLimiter :=
  (rl.dispatchTime now, { rl with last_request := some (rl.dispatchTime now) })

/-- Sequential calls through one limiter: the caller gets control back at the
dispatch instant, spends `g` further milliseconds of its own work, and calls
`wait` again; `runSeq clock gs` returns the list of dispatch instants. -/
def RateLimiter.runSeq (rl : RateLimiter) (clock : Nat) : List Nat → List Nat
  | [] => []
  | g :: gs =>
    let p := rl.wait (clock + g)
    p.1 :: p.2.runSeq p.1 gs

lemma RateLimiter.dispatchTime_ge (rl : RateLimiter) {l now : Nat}
    (h : rl.last_request = some l) (hln : l ≤ now) :
    l + rl.interval_ms ≤ rl.dispatchTime now := by
  simp only [RateLimiter.dispatchTime, h]
  split <;> omega

lemma RateLimiter.dispatchTime_none (rl : RateLimiter) (now : Nat)
    (h : rl.last_request = none) : rl.dispatchTime now = now := by
  simp [RateLimiter.dispatchTime, h]

lemma RateLimiter.runSeq_head (rl : RateLimiter) (clock g : Nat) (gs : List Nat) :
    (rl.runSeq clock (g :: gs)).head? = some (rl.dispatchTime (clock + g)) := rfl

lemma RateLimiter.runSeq_chain (rl : RateLimiter) (clock : Nat) (gs : List Nat)
    (hinv : ∀ l, rl.last_request = some l → l ≤ clock) :
    List.Chain' (fun a b => a + rl.interval_ms ≤ b) (rl.runSeq clock gs) := by
  induction gs generalizing rl clock with
  | nil => exact List.chain'_nil
  | cons g gs ih =>
    have hunfold : rl.runSeq clock (g :: gs)
        = (rl.wait (clock + g)).1 :: (rl.wait (clock + g)).2.runSeq (rl.wait (clock + g)).1 gs :=
      rfl
    rw [hunfold, List.chain'_cons']
    refine ⟨?_, ?_⟩
    · intro b hb
      cases gs with
      | nil => simp [RateLimiter.runSeq] at hb
      | cons g' gs' =>
        rw [RateLimiter.runSeq_head] at hb
        have hb' : b = (rl.wait (clock + g)).2.dispatchTime ((rl.wait (clock + g)).1 + g') :=
          (Option.some_inj.mp hb).symm
        have hlast : (rl.wait (clock + g)).2.last_request = some (rl.wait (clock + g)).1 := rfl
        have hle :
            (rl.wait (clock + g)).1 + (rl.wait (clock + g)).2.interval_ms
              ≤ (rl.wait (clock + g)).2.dispatchTime ((rl.wait (clock + g)).1 + g') :=
          RateLimiter.dispatchTime_ge _ hlast (Nat.le_add_right _ _)
        rw [hb']
        exact hle
    · exact ih (rl.wait (clock + g)).2 (rl.wait (clock + g)).1
        (fun l hl => Nat.le_of_eq (Option.some_inj.mp hl).symm)

lemma chain'_head_add_le (c : Nat) :
    ∀ (l : List Nat), List.Chain' (fun a b => a + c ≤ b) l →
      ∀ i, i < l.length → l.head! + i * c ≤ l[i]! := by
  intro l
  induction l with
  | nil => intro _ i hi; simp at hi
  | cons a l ih =>
    intro hch i hi
    rw [List.chain'_cons'] at hch
    cases i with
    | zero => simp
    | succ i =>
      have hlen : i < l.length := by simpa using hi
      have hne : l ≠ [] := by
        intro h; rw [h] at hlen; simp at hlen
      obtain ⟨x, xs, rfl⟩ := List.exists_cons_of_ne_nil hne
      have hax : a + c ≤ x := hch.1 x rfl
      have := ih hch.2 i hlen
      have hgi : ((a :: x :: xs)[i + 1]! : Nat) = (x :: xs)[i]! := by
        simp [List.getElem!_cons_succ]
      rw [hgi]
      have hhd : (x :: xs).head! = x := rfl
      rw [hhd] at this
      calc (a :: x :: xs).head! + (i + 1) * c = a + c + i * c := by
            simp [List.head!]; ring
        _ ≤ x + i * c := by omega
        _ ≤ (x :: xs)[i]! := this

/-- C6: the rate limiter enforces the configured spacing.  For `tps = T` the
configured interval is `1000 / T` (the source's `u64` integer division);
any run of sequential calls through one limiter yields dispatch instants in
which (i) consecutive dispatches are at least the interval apart, (ii) the
i-th dispatch is at least `i * (1000 / T)` after the first, so N calls span
at least `(N-1) * 1000 / T` milliseconds of wall time, and (iii) a fresh
limiter dispatches its first call immediately at the call instant. -/
theorem C6_rate_limiter_spacing (tps : Nat) (htps : 0 < tps) (rl : RateLimiter)
    (hrl : RateLimiter.new tps = some rl) (start : Nat) (gs : List Nat) :
    List.Chain' (fun a b => a + 1000 / tps ≤ b) (rl.runSeq start gs) ∧
    (∀ i, i < (rl.runSeq start gs).length →
      (rl.runSeq start gs).head! + i * (1000 / tps) ≤ (rl.runSeq start gs)[i]!) ∧
    (∀ g gs', gs = g :: gs' → (rl.runSeq start gs).head! = start + g) := by
  have htne : tps ≠ 0 := Nat.pos_iff_ne_zero.mp htps
  have hrl' : rl = { last_request := none, interval_ms := 1000 / tps } := by
    simp only [RateLimiter.new, if_neg htne, Option.some_inj] at hrl
    exact hrl.symm
  subst hrl'
  have hch := RateLimiter.runSeq_chain
    { last_request := none, interval_ms := 1000 / tps } start gs (fun l hl => by simp at hl)
  refine ⟨hch, fun i hi => chain'_head_add_le _ _ hch i hi, ?_⟩
  intro g gs' hgs
  subst hgs
  simp [RateLimiter.runSeq, RateLimiter.wait, RateLimiter.dispatchTime]

theorem C6_witness :
    0 < 4 ∧
    RateLimiter.new 4 = some { last_request := none, interval_ms := 250 } ∧
    List.Chain' (fun a b => a + 1000 / 4 ≤ b)
      (RateLimiter.runSeq { last_request := none, interval_ms := 250 } 0 [0, 0, 100]) :=
  ⟨by decide, rfl,
    (C6_rate_limiter_spacing 4 (by decide)
      { last_request := none, interval_ms := 250 } rfl 0 [0, 0, 100]).1⟩

/-- C7 counterexample: `RateLimiter::new(0)` reaches the unguarded division
`1000 / tps` (rate_limiter.rs:26); in Rust `1000u64 / 0` panics, rendered
as `none` in the embedding.  The construction parameter is not validated,
so for `tps = 0` construction neither returns a limiter nor rejects the
input in a controlled way — it panics, contrary to the claim. -/
theorem C7_counterexample : RateLimiter.new 0 = none := rfl

/-- C7 (amended): `tps` is not validated.  For every `tps > 0`,
`RateLimiter::new` returns a limiter with `interval_ms = 1000 / tps`
(integer division); for `tps = 0` the division panics (see the
counterexample). -/
theorem C7_amended (tps : Nat) (h : 0 < tps) :
    RateLimiter.new tps = some { last_request := none, interval_ms := 1000 / tps } := by
  simp [RateLimiter.new, Nat.pos_iff_ne_zero.mp h]

theorem C7_witness :
    0 < 10 ∧ RateLimiter.new 10 = some { last_request := none, interval_ms := 100 } :=
  ⟨by decide, C7_amended 10 (by decide)⟩

/-! ## Per-request limiter construction (crates/api-server/src/sse.rs)

Each invocation of an SSE handler constructs its own limiter instance:
`RateLimiter::new(10)` inside `flight_price_stream` (sse.rs:106) and
`RateLimiter::new(4)` inside `price_matrix_stream` (sse.rs:292).  The
instance is cloned only into the sub-query closures of that one request. -/

/-- Embeds the limiter constructed by each `flight_price_stream` invocation
(sse.rs:106). -/
def flightPriceStreamLimiter : Option RateLimiter := RateLimiter.new 10

/-- Embeds the limiter constructed by each `price_matrix_stream` invocation
(sse.rs:292). -/
def priceMatrixStreamLimiter : Option RateLimiter := RateLimiter.new 4

/-- C4 counterexample: the limiter state is not a process-wide singleton.
Request A's `price_matrix_stream` invocation constructs a fresh instance
and dispatches at instant 1000 (conjuncts 1-3).  Request B's concurrent
invocation constructs its own fresh instance (conjunct 1 again), whose
`wait` at instant 1000 also dispatches at 1000 (conjunct 3): B does not
observe A's dispatch, so two process-wide upstream dispatches are 0 ms
apart, below the 250 ms interval.  A genuinely shared state would have
delayed the second dispatch to 1250 (conjunct 4). -/
theorem C4_counterexample :
    priceMatrixStreamLimiter = some { last_request := none, interval_ms := 250 } ∧
    (({ last_request := none, interval_ms := 250 } : RateLimiter).wait 1000).2
      = { last_request := some 1000, interval_ms := 250 } ∧
    (({ last_request := none, interval_ms := 250 } : RateLimiter).wait 1000).1 = 1000 ∧
    (({ last_request := some 1000, interval_ms := 250 } : RateLimiter).wait 1000).1 = 1250 ∧
    ¬ (1000 + 250 ≤ 1000) :=
  ⟨rfl, rfl, rfl, rfl, by decide⟩

/-- C4 (amended): each SSE handler invocation constructs its own
`RateLimiter` (10 TPS in `flight_price_stream`, 4 TPS in
`price_matrix_stream`); the pacing state is shared only among the
sub-queries of that one invocation.  A freshly constructed instance
dispatches its first call immediately regardless of dispatches recorded in
any other instance, while within one instance the configured spacing is
enforced. -/
theorem C4_amended (t : Nat) :
    flightPriceStreamLimiter = some { last_request := none, interval_ms := 100 } ∧
    priceMatrixStreamLimiter = some { last_request := none, interval_ms := 250 } ∧
    (∀ rl : RateLimiter, rl.last_request = none → (rl.wait t).1 = t) ∧
    (∀ rl : RateLimiter, ∀ l, rl.last_request = some l → l ≤ t →
      l + rl.interval_ms ≤ (rl.wait t).1) :=
  ⟨rfl, rfl,
    fun rl h => rl.dispatchTime_none t h,
    fun rl l h hlt => rl.dispatchTime_ge h hlt⟩

theorem C4_witness :
    (({ last_request := none, interval_ms := 250 } : RateLimiter).wait 500).1 = 500 ∧
    300 + 250 ≤ (({ last_request := some 300, interval_ms := 250 } : RateLimiter).wait 500).1 :=
  ⟨(C4_amended 500).2.2.1 { last_request := none, interval_ms := 250 } rfl,
    (C4_amended 500).2.2.2 { last_request := some 300, interval_ms := 250 } 300 rfl (by decide)⟩

/-! ## Credential manager (crates/api-server/src/amadeus.rs)

The token cache is `static TOKEN_CACHE: OnceLock<RwLock<Option<TokenCache>>>`.
`get_token` (amadeus.rs:84-113) takes the read lock and serves the cached
token when `expires_at > now + 60s`; otherwise it drops the read lock, calls
`fetch_new_token` with no lock held, then takes the write lock and stores the
token with `expires_at = now + (expires_in as u64).saturating_sub(120)`.
Instants are seconds on the monotone clock; `expires_in` is the non-negative
upstream ttl in seconds. -/

structure TokenResponse where
  access_token : String
  token_type : String
  expires_in : Nat
deriving Repr, DecidableEq

structure TokenCache where
  token : String
  expires_at : Nat
deriving Repr, DecidableEq

/-- Embeds the refresh path of `get_token` (amadeus.rs:96-112): `fetchRes` is
the outcome `fetch_new_token` would produce; on success the token is cached
with the 120-second buffer subtracted (saturating, as in the source). -/
def refreshToken (now : Nat) (fetchRes : Except String TokenResponse) :
    Except String (String × Option TokenCache) :=
  match fetchRes with
  | .error e => .error e
  | .ok tr =>
      .ok (tr.access_token,
        some { token := tr.access_token, expires_at := now + (tr.expires_in - 120) })

/-- Embeds `get_token` (amadeus.rs:84-113) as one sequential execution over
the cache cell: serve the cached token when `expires_at > now + 60`, else
refresh.  Returns the token and the cache cell afterwards. -/
def getToken (cache : Option TokenCache) (now : Nat)
    (fetchRes : Except String TokenResponse) :
    Except String (String × Option TokenCache) :=
  match cache with
  | some cached =>
      if now + 60 < cached.expires_at then .ok (cached.token, some cached)
      else refreshToken now fetchRes
  | none => refreshToken now fetchRes

/-- C8 counterexample: with an empty cache at `now = 0` and an upstream ttl of
100 seconds, `get_token` returns the fresh token unconditionally, caching it
with `expires_at = 0 + (100 - 120 saturating) = 0`: the token is handed out
with 0 seconds of remaining life, below the claimed 60-second margin.  The
60-second check guards only the cache-served path; a freshly fetched token is
never checked. -/
theorem C8_counterexample :
    getToken none 0 (.ok { access_token := "tok", token_type := "Bearer", expires_in := 100 })
      = .ok ("tok", some { token := "tok", expires_at := 0 }) ∧ ¬ (60 ≤ 0 - 0) :=
  ⟨rfl, by decide⟩

/-- C8 (amended): a token served from the cache has strictly more than 60
seconds of remaining life, and on refresh the new cached expiry is
`now + (expires_in - 120)` with saturating subtraction; but a freshly fetched
token is returned unconditionally, so its margin can be below 60 seconds
whenever the upstream ttl is below 180 seconds (see the counterexample). -/
theorem C8_amended (cache : Option TokenCache) (now : Nat)
    (fr : Except String TokenResponse) :
    (∀ c, cache = some c → now + 60 < c.expires_at →
      getToken cache now fr = .ok (c.token, some c) ∧ 60 < c.expires_at - now) ∧
    (∀ tr, fr = .ok tr → (∀ c, cache = some c → c.expires_at ≤ now + 60) →
      getToken cache now fr
        = .ok (tr.access_token,
            some { token := tr.access_token, expires_at := now + (tr.expires_in - 120) })) := by
  constructor
  · intro c hc hvalid
    subst hc
    exact ⟨by simp [getToken, hvalid], by omega⟩
  · intro tr htr hstale
    subst htr
    cases cache with
    | none => simp [getToken, refreshToken]
    | some c =>
      have hle : c.expires_at ≤ now + 60 := hstale c rfl
      simp [getToken, refreshToken, Nat.not_lt.mpr hle]

theorem C8_witness :
    ((some { token := "cached", expires_at := 1000 } : Option TokenCache) = some
      { token := "cached", expires_at := 1000 }) ∧
    (0 + 60 < 1000) ∧
    getToken (some { token := "cached", expires_at := 1000 }) 0
      (.ok { access_token := "fresh", token_type := "Bearer", expires_in := 1799 })
      = .ok ("cached", some { token := "cached", expires_at := 1000 }) ∧
    getToken (some { token := "stale", expires_at := 50 }) 0
      (.ok { access_token := "fresh", token_type := "Bearer", expires_in := 1799 })
      = .ok ("fresh", some { token := "fresh", expires_at := 1679 }) :=
  ⟨rfl, by decide,
    ((C8_amended (some { token := "cached", expires_at := 1000 }) 0
        (.ok { access_token := "fresh", token_type := "Bearer", expires_in := 1799 })).1
      { token := "cached", expires_at := 1000 } rfl (by decide)).1,
    (C8_amended (some { token := "stale", expires_at := 50 }) 0
        (.ok { access_token := "fresh", token_type := "Bearer", expires_in := 1799 })).2
      { access_token := "fresh", token_type := "Bearer", expires_in := 1799 } rfl
      (fun c hc => by cases Option.some_inj.mp hc; decide)⟩

/-! ## Token refresh race (claim C3)

The interleaving of `get_token` as the source executes it, for two concurrent
callers over the shared `TOKEN_CACHE` cell.  Atomic steps per caller:
`readCheck` is the read-locked validity check (amadeus.rs:86-94); `doFetch`
is the `fetch_new_token` network call, performed with *no* lock held
(amadeus.rs:97); `doWrite` is the write-locked store (amadeus.rs:104-110).
There is no re-check of the cache between `doFetch` and `doWrite`: once a
caller's read check found the cache stale, it always fetches. -/

inductive CallerPc
  | readCheck
  | doFetch
  | doWrite
  | finished
deriving Repr, DecidableEq

structure Caller where
  pc : CallerPc
  fetchRes : TokenResponse
  result : Option String
deriving Repr, DecidableEq

structure AuthRace where
  cache : Option TokenCache
  authCalls : Nat
  c0 : Caller
  c1 : Caller
deriving Repr, DecidableEq

/-- One atomic step of one caller: returns the caller, the cache cell, and the
number of upstream auth calls issued by the step (1 for `doFetch`). -/
def Caller.step (now : Nat) (cache : Option TokenCache) (c : Caller) :
    Caller × Option TokenCache × Nat :=
  match c.pc with
  | .readCheck =>
      match cache with
      | some cached =>
          if now + 60 < cached.expires_at then
            ({ c with pc := .finished, result := some cached.token }, cache, 0)
          else ({ c with pc := .doFetch }, cache, 0)
      | none => ({ c with pc := .doFetch }, cache, 0)
  | .doFetch => ({ c with pc := .doWrite }, cache, 1)
  | .doWrite =>
      ({ c with pc := .finished, result := some c.fetchRes.access_token },
        some { token := c.fetchRes.access_token,
               expires_at := now + (c.fetchRes.expires_in - 120) }, 0)
  | .finished => (c, cache, 0)

/-- Schedule step: `false` advances caller 0, `true` advances caller 1. -/
def AuthRace.step (now : Nat) (s : AuthRace) (i : Bool) : AuthRace :=
  if i then
    let r := s.c1.step now s.cache
    { s with c1 := r.1, cache := r.2.1, authCalls := s.authCalls + r.2.2 }
  else
    let r := s.c0.step now s.cache
    { s with c0 := r.1, cache := r.2.1, authCalls := s.authCalls + r.2.2 }

def AuthRace.run (now : Nat) (s : AuthRace) : List Bool → AuthRace
  | [] => s
  | i :: sched => (s.step now i).run now sched

/-- Two callers racing on an absent token at instant 0, each with its own
upstream fetch outcome pending. -/
def authRaceInit : AuthRace :=
  { cache := none, authCalls := 0,
    c0 := { pc := .readCheck,
            fetchRes := { access_token := "tokA", token_type := "Bearer", expires_in := 1799 },
            result := none },
    c1 := { pc := .readCheck,
            fetchRes := { access_token := "tokB", token_type := "Bearer", expires_in := 1799 },
            result := none } }

/-- C3 counterexample: with the cached token absent, the interleaving in which
both callers pass the read-locked validity check before either refresh is
stored performs two upstream auth calls, not one.  The schedule runs both
callers to completion (both reach `finished`), so this is a full concurrent
execution of `get_token` by 2 callers with 2 upstream auth calls: the refresh
path never re-checks the cache under the write lock. -/
theorem C3_counterexample :
    (authRaceInit.run 0 [false, true, false, false, true, true]).authCalls = 2 ∧
    (authRaceInit.run 0 [false, true, false, false, true, true]).c0.pc = .finished ∧
    (authRaceInit.run 0 [false, true, false, false, true, true]).c1.pc = .finished :=
  ⟨rfl, rfl, rfl⟩

/-- Calls a caller can still issue: 1 before its fetch has happened, 0 after. -/
def CallerPc.pending : CallerPc → Nat
  | .readCheck => 1
  | .doFetch => 1
  | .doWrite => 0
  | .finished => 0

lemma Caller.step_calls_bound (now : Nat) (cache : Option TokenCache) (c : Caller) :
    (c.step now cache).2.2 + (c.step now cache).1.pc.pending ≤ c.pc.pending := by
  cases hpc : c.pc with
  | readCheck =>
    cases cache with
    | none => simp [Caller.step, hpc, CallerPc.pending]
    | some cached =>
      by_cases hv : now + 60 < cached.expires_at <;>
        simp [Caller.step, hpc, hv, CallerPc.pending]
  | doFetch => simp [Caller.step, hpc, CallerPc.pending]
  | doWrite => simp [Caller.step, hpc, CallerPc.pending]
  | finished => simp [Caller.step, hpc, CallerPc.pending]

lemma AuthRace.race_step_calls_bound (now : Nat) (s : AuthRace) (i : Bool) :
    (s.step now i).authCalls + (s.step now i).c0.pc.pending + (s.step now i).c1.pc.pending
      ≤ s.authCalls + s.c0.pc.pending + s.c1.pc.pending := by
  have h0 := Caller.step_calls_bound now s.cache s.c0
  have h1 := Caller.step_calls_bound now s.cache s.c1
  cases i <;> simp [AuthRace.step] <;> omega

lemma AuthRace.run_potential (now : Nat) (sched : List Bool) (s : AuthRace) :
    (s.run now sched).authCalls + (s.run now sched).c0.pc.pending
        + (s.run now sched).c1.pc.pending
      ≤ s.authCalls + s.c0.pc.pending + s.c1.pc.pending := by
  induction sched generalizing s with
  | nil => simp [AuthRace.run]
  | cons i sched ih =>
    have h1 := AuthRace.race_step_calls_bound now s i
    have h2 := ih (s.step now i)
    simp only [AuthRace.run]
    omega

/-- C3 (amended): `get_token` checks the cache only under the read lock; there
is no re-check under the write lock, so a caller that found the cache stale
always performs its own upstream fetch (conjunct 1: from program point
`doFetch` the fetch is unconditional, whatever the cache now holds).  Hence
concurrent callers racing on an absent or expired token may each refresh —
two callers and the interleaving of the counterexample make 2 upstream auth
calls — while any schedule makes at most one auth call per caller
(conjunct 2), and a fully serialized pair of callers makes exactly 1, the
second caller being served the freshly cached token (conjuncts 3-5). -/
theorem C3_amended (sched : List Bool) :
    (∀ (now : Nat) (cache : Option TokenCache) (fr : TokenResponse) (res : Option String),
      Caller.step now cache { pc := .doFetch, fetchRes := fr, result := res }
        = ({ pc := .doWrite, fetchRes := fr, result := res }, cache, 1)) ∧
    (authRaceInit.run 0 sched).authCalls ≤ 2 ∧
    (authRaceInit.run 0 [false, false, false, true]).authCalls = 1 ∧
    (authRaceInit.run 0 [false, false, false, true]).c1.pc = .finished ∧
    (authRaceInit.run 0 [false, false, false, true]).c1.result = some "tokA" := by
  refine ⟨fun now cache fr res => rfl, ?_, rfl, rfl, rfl⟩
  have h := AuthRace.run_potential 0 sched authRaceInit
  have hp0 : authRaceInit.authCalls = 0 := rfl
  have hp1 : authRaceInit.c0.pc.pending = 1 := rfl
  have hp2 : authRaceInit.c1.pc.pending = 1 := rfl
  omega

/-! ## Retrying caller (crates/api-server/src/amadeus.rs, `search_flights`)

The retry loop (amadeus.rs:334-419) issues the upstream call; on a 2xx
response it parses and returns; on HTTP 429 it errors out terminally once
`retry_count >= max_retries` (3), otherwise it increments `retry_count`,
sleeps either the parsed `Retry-After` header or `1 << (retry_count - 1)`
seconds, and loops; on any other status it errors terminally at once.  The
response is modelled post-wire: a 2xx carries its (already parsed) payload,
a 429 carries the parsed `Retry-After` seconds when the header is present
(an unparseable header is parsed to 1 by the source's `unwrap_or`), and any
other status carries the status and body. -/

inductive UpstreamResponse
  | success (payload : String)
  | tooMany (retryAfter : Option Nat)
  | failure (status : Nat) (body : String)
deriving Repr, DecidableEq

/-- Embeds the `loop` of `search_flights` (amadeus.rs:334-419) with the
responses the upstream delivers, one per issued call, as an explicit list.
Returns the number of calls issued, the list of slept delays in seconds, and
the outcome.  An exhausted response list (never reached from a real upstream)
is a transport error, like the source's `send().await?`. -/
def searchFlightsFrom : Nat → List UpstreamResponse → Nat × List Nat × Except String String
  | _, [] => (0, [], .error "transport error: no response")
  | retryCount, r :: rs =>
    match r with
    | .success payload => (1, [], .ok payload)
    | .tooMany hint =>
        if 3 ≤ retryCount then
          (1, [], .error "rate limit exceeded after retries")
        else
          let waitTime := match hint with
            | some n => n
            | none => 2 ^ retryCount
          let rest := searchFlightsFrom (retryCount + 1) rs
          (rest.1 + 1, waitTime :: rest.2.1, rest.2.2)
    | .failure status _ => (1, [], .error (toString status))

/-- Embeds `search_flights` retry behaviour: the loop starts with
`retry_count = 0`; the sleep after the k-th consecutive 429 is the parsed
`Retry-After` value when the header is present, else
`1 << (retry_count - 1) = 2^(k-1)` seconds after the increment. -/
def searchFlights (responses : List UpstreamResponse) : Nat × List Nat × Except String String :=
  searchFlightsFrom 0 responses

/-- C2: three consecutive 429 responses followed by a success make exactly 4
upstream calls and return the successful payload, sleeping the
provider-supplied hints verbatim when present and 1, 2, 4 seconds otherwise;
and four consecutive 429s exhaust the 3 additional retries and fail with the
terminal rate-limit error after exactly 4 calls. -/
theorem C2_retry_backoff (h1 h2 h3 : Option Nat) (payload : String) (h4 : Option Nat) :
    searchFlights [.tooMany h1, .tooMany h2, .tooMany h3, .success payload]
      = (4, [h1.getD 1, h2.getD 2, h3.getD 4], .ok payload) ∧
    searchFlights [.tooMany h1, .tooMany h2, .tooMany h3, .tooMany h4]
      = (4, [h1.getD 1, h2.getD 2, h3.getD 4],
          .error "rate limit exceeded after retries") := by
  cases h1 <;> cases h2 <;> cases h3 <;> cases h4 <;>
    exact ⟨rfl, rfl⟩

/-! ## Domain records (crates/api-server/src/models.rs)

`Price` (models.rs:182-193) and `FlightOffer` (models.rs:83-110) are reduced
to the fields the orchestration core reads: the offer id and the decimal
price string `price.total`.  `FlightOffersResponse` holds the offer list
`data`. -/

structure Price where
  total : String
deriving Repr, DecidableEq

structure FlightOffer where
  id : String
  price : Price
deriving Repr, DecidableEq

structure FlightOffersResponse where
  data : List FlightOffer
deriving Repr, DecidableEq

/-! ## Streaming emitter, pricing stream (crates/api-server/src/sse.rs)

`flight_price_stream` (sse.rs:113-158) processes the offers strictly in
order (`stream::iter(...).then(...)` is sequential) and for each offer emits
a Progress event followed by the offer's terminal Success or Error event.
No Complete event is ever constructed in this handler: the `Complete`
variant of `PricingEvent` exists (sse.rs:55-59) but is unused
(`#[allow(dead_code)]`). -/

inductive PricingEvent
  | success (offerId : String) (result : String)
  | error (offerId : String) (message : String)
  | progress (current total : Nat)
  | complete (total successful failed : Nat)
deriving Repr, DecidableEq

def PricingEvent.isComplete : PricingEvent → Bool
  | .complete _ _ _ => true
  | _ => false

def PricingEvent.isSuccess : PricingEvent → Bool
  | .success _ _ => true
  | _ => false

def PricingEvent.isError : PricingEvent → Bool
  | .error _ _ => true
  | _ => false

def PricingEvent.isTerminal : PricingEvent → Bool
  | .success _ _ => true
  | .error _ _ => true
  | _ => false

/-- Embeds the event assembly of `flight_price_stream` (sse.rs:113-152):
`outcomes` pairs each offer id with the outcome of `price_flight_offers` for
that offer; `index` is the running `enumerate()` counter and `total` the
offer count. -/
def flightPriceEventsFrom (total : Nat) :
    Nat → List (String × Except String String) → List PricingEvent
  | _, [] => []
  | index, (offerId, outcome) :: rest =>
    PricingEvent.progress (index + 1) total ::
      (match outcome with
        | .ok r => PricingEvent.success offerId r
        | .error e => PricingEvent.error offerId e) ::
      flightPriceEventsFrom total (index + 1) rest

def flightPriceStreamEvents (outcomes : List (String × Except String String)) :
    List PricingEvent :=
  flightPriceEventsFrom outcomes.length 0 outcomes

/-- A batch of 10 offers to price of which exactly 2 fail (offers 3 and 7). -/
def c1Batch : List (String × Except String String) :=
  [("o1", .ok "p1"), ("o2", .ok "p2"), ("o3", .error "429 after retries"),
   ("o4", .ok "p4"), ("o5", .ok "p5"), ("o6", .ok "p6"),
   ("o7", .error "decode failure"), ("o8", .ok "p8"), ("o9", .ok "p9"),
   ("o10", .ok "p10")]

/-- C1 counterexample: a batch of 10 sub-queries of which exactly 2 fail,
streamed by `flight_price_stream`, yields 8 Success and 2 Error terminal
events but ZERO Complete events — the handler never emits one — refuting
the claimed invariant of exactly one final Complete with accurate counts. -/
theorem C1_counterexample :
    (flightPriceStreamEvents c1Batch).countP PricingEvent.isSuccess = 8 ∧
    (flightPriceStreamEvents c1Batch).countP PricingEvent.isError = 2 ∧
    (flightPriceStreamEvents c1Batch).countP PricingEvent.isComplete = 0 :=
  ⟨rfl, rfl, rfl⟩

/-! ## Streaming emitter, price matrix stream (crates/api-server/src/sse.rs)

`price_matrix_stream` (sse.rs:412-467) emits per combination one Price event
whose `price` is `None` on failure (failures are not distinct Error events),
a Progress event after every 5th combination and after the final-index
combination, and — attached to the combination with the final index — one
Complete event hard-coded as `successful: total, failed: 0` ("We don't track
failures separately for now", sse.rs:453).  The handler runs combinations
through `buffer_unordered(4)`, so the concrete interleaving is
nondeterministic; the embedding is the index-order linearization, and the
per-combination event groups and the Complete payload are
linearization-independent. -/

inductive PriceMatrixEvent
  | price (outboundDate inboundDate : String) (price : Option String) (currency : String)
  | progress (current total : Nat)
  | complete (total successful failed : Nat)
deriving Repr, DecidableEq

def PriceMatrixEvent.isComplete : PriceMatrixEvent → Bool
  | .complete _ _ _ => true
  | _ => false

def PriceMatrixEvent.isPrice : PriceMatrixEvent → Bool
  | .price _ _ _ _ => true
  | _ => false

/-- Events emitted for the combination at position `index` (sse.rs:422-461):
the Price event, the conditional Progress event, and the conditional
Complete event with its hard-coded counts. -/
def priceMatrixItemEvents (curr : String) (total index : Nat) (ob ib : String)
    (p : Option String) : List PriceMatrixEvent :=
  [PriceMatrixEvent.price ob ib p curr]
    ++ (if (index + 1) % 5 = 0 ∨ index + 1 = total then
          [PriceMatrixEvent.progress (index + 1) total] else [])
    ++ (if index + 1 = total then [PriceMatrixEvent.complete total total 0] else [])

def priceMatrixEventsFrom (curr : String) (total : Nat) :
    Nat → List (String × String × Option String) → List PriceMatrixEvent
  | _, [] => []
  | index, (ob, ib, p) :: rest =>
    priceMatrixItemEvents curr total index ob ib p
      ++ priceMatrixEventsFrom curr total (index + 1) rest

/-- Index-order linearization of the `price_matrix_stream` event stream;
`items` lists per combination the outbound date, inbound date, and the price
produced for it (`none` on upstream failure or empty result). -/
def priceMatrixStreamEvents (curr : String)
    (items : List (String × String × Option String)) : List PriceMatrixEvent :=
  priceMatrixEventsFrom curr items.length 0 items

/-! ## Cache-aside sub-query execution (crates/api-server/src/sse.rs:353-420)

One sub-query of `price_matrix_stream`: try the cache; on a deserialized hit
use it directly; only on a miss wait on the limiter and call `search_flights`
(then best-effort store).  `cacheLookup` is the deserialized cached response
when the Redis get hits and parses; `none` covers store unconfigured, miss,
and deserialization failure alike (the source collapses all of these to
`None`).  Returns the price for the Price event, the limiter state
afterwards, the number of `RateLimiter::wait` invocations, and the number of
upstream `search_flights` calls. -/

def runMatrixSubQuery (cacheLookup : Option FlightOffersResponse)
    (rl : RateLimiter) (now : Nat)
    (upstream : Except String FlightOffersResponse) :
    Option String × RateLimiter × Nat × Nat :=
  match cacheLookup with
  | some resp => (resp.data.head?.map (fun o => o.price.total), rl, 0, 0)
  | none =>
      let w := rl.wait now
      match upstream with
      | .ok resp => (resp.data.head?.map (fun o => o.price.total), w.2, 1, 1)
      | .error _ => (none, w.2, 1, 1)

/-- C9: a cache hit (a cached response exists and deserializes) invokes
neither `RateLimiter::wait` nor the upstream retrying caller, leaves the
limiter state unchanged, and uses the cached response's first offer price as
the sub-query's result. -/
theorem C9_cache_hit_frame (cacheLookup : Option FlightOffersResponse)
    (resp : FlightOffersResponse) (rl : RateLimiter) (now : Nat)
    (upstream : Except String FlightOffersResponse)
    (h : cacheLookup = some resp) :
    runMatrixSubQuery cacheLookup rl now upstream
      = (resp.data.head?.map (fun o => o.price.total), rl, 0, 0) := by
  subst h
  rfl

/-- A concrete cached response used by the C9 witness. -/
def c9CachedResp : FlightOffersResponse :=
  { data := [{ id := "m1", price := { total := "123.45" } }] }

theorem C9_witness :
    (some c9CachedResp = some c9CachedResp) ∧
    runMatrixSubQuery (some c9CachedResp)
        { last_request := some 7, interval_ms := 250 } 10 (.error "upstream down")
      = (some "123.45", { last_request := some 7, interval_ms := 250 }, 0, 0) :=
  ⟨rfl, C9_cache_hit_frame (some c9CachedResp) c9CachedResp
    { last_request := some 7, interval_ms := 250 } 10 (.error "upstream down") rfl⟩

/-- Discriminates a successful sub-query outcome. -/
def isOkOutcome (oc : String × Except String String) : Bool :=
  match oc.2 with
  | .ok _ => true
  | .error _ => false

lemma flightPriceEventsFrom_counts (total : Nat)
    (l : List (String × Except String String)) :
    ∀ index,
      (flightPriceEventsFrom total index l).countP PricingEvent.isComplete = 0 ∧
      (flightPriceEventsFrom total index l).countP PricingEvent.isSuccess
        = l.countP isOkOutcome ∧
      (flightPriceEventsFrom total index l).countP PricingEvent.isError
        = l.countP (fun oc => ! isOkOutcome oc) ∧
      (flightPriceEventsFrom total index l).countP PricingEvent.isTerminal = l.length := by
  induction l with
  | nil => intro index; simp [flightPriceEventsFrom]
  | cons hd tl ih =>
    intro index
    obtain ⟨oid, oc⟩ := hd
    have h := ih (index + 1)
    cases oc <;>
      simp [flightPriceEventsFrom, List.countP_cons, isOkOutcome,
        PricingEvent.isComplete, PricingEvent.isSuccess, PricingEvent.isError,
        PricingEvent.isTerminal, h.1, h.2.1, h.2.2.1, h.2.2.2]

lemma priceMatrixItemEvents_last (curr : String) (total index : Nat) (ob ib : String)
    (p : Option String) (h : index + 1 = total) :
    (priceMatrixItemEvents curr total index ob ib p).countP PriceMatrixEvent.isComplete = 1 ∧
    (priceMatrixItemEvents curr total index ob ib p).getLast?
      = some (PriceMatrixEvent.complete total total 0) := by
  by_cases h5 : (index + 1) % 5 = 0 <;>
    simp [priceMatrixItemEvents, h, h5, PriceMatrixEvent.isComplete, List.countP_cons]

lemma priceMatrixItemEvents_mid (curr : String) (total index : Nat) (ob ib : String)
    (p : Option String) (h : ¬ index + 1 = total) :
    (priceMatrixItemEvents curr total index ob ib p).countP PriceMatrixEvent.isComplete = 0 := by
  by_cases h5 : (index + 1) % 5 = 0 <;>
    simp [priceMatrixItemEvents, h, h5, PriceMatrixEvent.isComplete, List.countP_cons]

lemma priceMatrixItemEvents_price_count (curr : String) (total index : Nat) (ob ib : String)
    (p : Option String) :
    (priceMatrixItemEvents curr total index ob ib p).countP PriceMatrixEvent.isPrice = 1 := by
  by_cases h5 : (index + 1) % 5 = 0 ∨ index + 1 = total <;>
    by_cases ht : index + 1 = total <;>
    simp [priceMatrixItemEvents, h5, ht, PriceMatrixEvent.isPrice, List.countP_cons]

lemma priceMatrixEventsFrom_price_count (curr : String) (total : Nat)
    (l : List (String × String × Option String)) :
    ∀ index,
      (priceMatrixEventsFrom curr total index l).countP PriceMatrixEvent.isPrice
        = l.length := by
  induction l with
  | nil => intro index; simp [priceMatrixEventsFrom]
  | cons hd tl ih =>
    intro index
    obtain ⟨ob, ib, p⟩ := hd
    have hunfold : priceMatrixEventsFrom curr total index ((ob, ib, p) :: tl)
        = priceMatrixItemEvents curr total index ob ib p
            ++ priceMatrixEventsFrom curr total (index + 1) tl := rfl
    rw [hunfold, List.countP_append, priceMatrixItemEvents_price_count, ih (index + 1)]
    simp [Nat.add_comm]

lemma priceMatrixEventsFrom_complete (curr : String) (total : Nat)
    (l : List (String × String × Option String)) :
    ∀ index, index + l.length = total → l ≠ [] →
      (priceMatrixEventsFrom curr total index l).countP PriceMatrixEvent.isComplete = 1 ∧
      (priceMatrixEventsFrom curr total index l).getLast?
        = some (PriceMatrixEvent.complete total total 0) := by
  induction l with
  | nil => intro index _ hne; exact absurd rfl hne
  | cons hd tl ih =>
    intro index hlen _
    obtain ⟨ob, ib, p⟩ := hd
    have hunfold : priceMatrixEventsFrom curr total index ((ob, ib, p) :: tl)
        = priceMatrixItemEvents curr total index ob ib p
            ++ priceMatrixEventsFrom curr total (index + 1) tl := rfl
    cases tl with
    | nil =>
      have h1 : index + 1 = total := by simpa using hlen
      have hitem := priceMatrixItemEvents_last curr total index ob ib p h1
      rw [hunfold]
      have hnil : priceMatrixEventsFrom curr total (index + 1) [] = [] := rfl
      rw [hnil, List.append_nil]
      exact hitem
    | cons hd2 tl2 =>
      have hlen' : index + 1 + (hd2 :: tl2).length = total := by
        simp at hlen ⊢
        omega
      have h1 : ¬ index + 1 = total := by
        simp at hlen'
        omega
      have hih := ih (index + 1) hlen' (by simp)
      rw [hunfold]
      constructor
      · rw [List.countP_append, priceMatrixItemEvents_mid curr total index ob ib p h1, hih.1]
      · rw [List.getLast?_append, hih.2]
        rfl

/-- C1 (amended): the two streaming handlers behave as follows.
`flight_price_stream` emits, per offer in order, one Progress event followed
by exactly one terminal event (Success when pricing succeeded, Error when it
failed), so a batch of 10 with 2 failures yields 8 Success and 2 Error
events — but it emits NO Complete event at all.  `price_matrix_stream` emits
per combination exactly one Price event (with a null price on failure; there
are no Success/Error terminal events in this handler), and — attached to the
final-index combination — exactly one Complete event that is also the last
event of the index-order linearization, but whose counts are hard-coded to
`successful = total, failed = 0` regardless of how many combinations
actually failed. -/
theorem C1_amended (outcomes : List (String × Except String String))
    (curr : String) (items : List (String × String × Option String)) :
    ((flightPriceStreamEvents outcomes).countP PricingEvent.isComplete = 0 ∧
     (flightPriceStreamEvents outcomes).countP PricingEvent.isSuccess
       = outcomes.countP isOkOutcome ∧
     (flightPriceStreamEvents outcomes).countP PricingEvent.isError
       = outcomes.countP (fun oc => ! isOkOutcome oc) ∧
     (flightPriceStreamEvents outcomes).countP PricingEvent.isTerminal
       = outcomes.length) ∧
    ((priceMatrixStreamEvents curr items).countP PriceMatrixEvent.isPrice
       = items.length ∧
     (items ≠ [] →
       (priceMatrixStreamEvents curr items).countP PriceMatrixEvent.isComplete = 1 ∧
       (priceMatrixStreamEvents curr items).getLast?
         = some (PriceMatrixEvent.complete items.length items.length 0))) :=
  ⟨flightPriceEventsFrom_counts outcomes.length outcomes 0,
   priceMatrixEventsFrom_price_count curr items.length items 0,
   fun hne => priceMatrixEventsFrom_complete curr items.length items 0 (by simp) hne⟩

/-- A concrete two-combination matrix batch of which one combination failed
(null price). -/
def c1Matrix : List (String × String × Option String) :=
  [("2025-01-01", "2025-01-05", some "100.00"), ("2025-01-02", "2025-01-05", none)]

theorem C1_witness :
    (c1Matrix ≠ []) ∧
    (flightPriceStreamEvents c1Batch).countP PricingEvent.isComplete = 0 ∧
    (priceMatrixStreamEvents "EUR" c1Matrix).countP PriceMatrixEvent.isComplete = 1 ∧
    (priceMatrixStreamEvents "EUR" c1Matrix).getLast?
      = some (PriceMatrixEvent.complete 2 2 0) :=
  ⟨by decide,
   (C1_amended c1Batch "EUR" c1Matrix).1.1,
   ((C1_amended c1Batch "EUR" c1Matrix).2.2 (by decide)).1,
   ((C1_amended c1Batch "EUR" c1Matrix).2.2 (by decide)).2⟩

/-! ## Cache key (crates/api-server/src/main.rs, crates/api-server/src/sse.rs)

`FlightSearchRequest` (models.rs:9-28) and the cache-key format string used
identically by `flight_search` (main.rs:134-146) and `price_matrix_stream`
(sse.rs:339-351).  The `u32`/`i32` fields become `Nat`/`Int`. -/

structure FlightLegRequest where
  origin : String
  destination : String
  departure_date : String
deriving Repr, DecidableEq

structure FlightSearchRequest where
  origin : String
  destination : String
  departure_date : String
  return_date : Option String
  adults : Nat
  children : Nat
  infants : Nat
  currency : Option String
  travel_class : Option String
  non_stop : Option Bool
  max_price : Option Int
  max_results : Option Int
  included_airline_codes : Option (List String)
  excluded_airline_codes : Option (List String)
  additional_legs : Option (List FlightLegRequest)
deriving Repr, DecidableEq

/-- Embeds the cache-key construction (main.rs:134-146; sse.rs:339-351 builds
the same format): a colon-joined string of ten request fields, defaulting a
missing return date to "", a missing cabin to "ECONOMY", a missing non_stop
to false, and a missing max_results to 50.  The currency, max_price, the
airline include/exclude filters, and the additional multi-city legs are not
part of the key. -/
def cacheKey (r : FlightSearchRequest) : String :=
  "flight_search:" ++ r.origin ++ ":" ++ r.destination ++ ":" ++ r.departure_date ++ ":"
    ++ r.return_date.getD "" ++ ":" ++ toString r.adults ++ ":" ++ toString r.children
    ++ ":" ++ toString r.infants ++ ":" ++ r.travel_class.getD "ECONOMY" ++ ":"
    ++ toString (r.non_stop.getD false) ++ ":" ++ toString (r.max_results.getD 50)

/-- A round-trip search request priced in EUR. -/
def c5BaseRequest : FlightSearchRequest :=
  { origin := "JFK", destination := "LHR", departure_date := "2025-06-01",
    return_date := some "2025-06-10", adults := 2, children := 1, infants := 0,
    currency := some "EUR", travel_class := none, non_stop := none,
    max_price := none, max_results := some 250,
    included_airline_codes := none, excluded_airline_codes := none,
    additional_legs := none }

/-- The same request priced in USD — a price-affecting difference. -/
def c5UsdRequest : FlightSearchRequest :=
  { c5BaseRequest with currency := some "USD" }

/-- C5 counterexample: two requests that differ in the price-affecting
currency field produce the identical cache key — the key omits the currency
(and likewise max_price, the airline filters, and additional legs), so the
claimed collision-freedom on all price-affecting fields fails. -/
theorem C5_counterexample :
    cacheKey c5BaseRequest = cacheKey c5UsdRequest ∧
    c5BaseRequest.currency ≠ c5UsdRequest.currency :=
  ⟨rfl, by decide⟩

/-- C5 (amended): the cache key is deterministic (equal requests give equal
keys) and is built from exactly ten fields — origin, destination, departure
date, return date (default ""), adults, children, infants, cabin (default
"ECONOMY"), non_stop (default false), and max_results (default 50) — so any
two requests that differ only in currency, max_price, airline
include/exclude filters, or additional legs produce the identical key
(conjunct 2), while requests differing in a keyed field such as the origin
produce distinct keys (conjunct 3). -/
theorem C5_amended (r r2 : FlightSearchRequest) (cur : Option String)
    (mp : Option Int) (inc exc : Option (List String))
    (legs : Option (List FlightLegRequest)) :
    (r = r2 → cacheKey r = cacheKey r2) ∧
    cacheKey { r with
                currency := cur,
                max_price := mp,
                included_airline_codes := inc,
                excluded_airline_codes := exc,
                additional_legs := legs } = cacheKey r ∧
    cacheKey c5BaseRequest ≠ cacheKey { c5BaseRequest with origin := "BOS" } :=
  ⟨fun h => h ▸ rfl, rfl, by decide⟩

/-! ## Provider combinator (crates/api-server/src/ndc/combined.rs)

`CombinedProvider::search` (combined.rs:53-94) always runs the primary (GDS)
search; when a secondary (NDC) provider is configured its result is taken on
success and dropped with a warning on failure; on dual success the offer
lists are concatenated and sorted ascending by `price.total` parsed as f64
with `unwrap_or(f64::MAX)`, an incomparable pair falling back to `Equal` —
the comparison is total and cannot panic. -/

/-- Numeric value of a decimal-digit character; `none` for any other
character. -/
def digitVal? (c : Char) : Option Nat :=
  if '0' ≤ c ∧ c ≤ '9' then some (c.toNat - 48) else none

def parseFracPart : Nat → Nat → List Char → Option (Nat × Nat)
  | n, k, [] => some (n, k)
  | n, k, c :: cs =>
    match digitVal? c with
    | some d => parseFracPart (n * 10 + d) (k + 1) cs
    | none => none

def parseIntPart : Nat → List Char → Option (Nat × Nat)
  | n, [] => some (n, 0)
  | n, c :: cs =>
    if c = '.' then
      match cs with
      | [] => none
      | _ => parseFracPart n 0 cs
    else
      match digitVal? c with
      | some d => parseIntPart (n * 10 + d) cs
      | none => none

/-- Parses a decimal price string of the shape `digits` or `digits.digits`
(the shape `price.total` takes) into the exact value `n / 10^k`, represented
as the pair `(n, k)`.  Any other shape is unparseable (`none`) and is
treated by the comparator as infinite, as the source's
`parse::<f64>().unwrap_or(f64::MAX)` treats it.  (The source compares
binary-rounded `f64` values; on these decimal shapes the embedding's exact
decimal order is what that comparison realizes.) -/
def parsePrice (s : String) : Option (Nat × Nat) :=
  match s.toList with
  | [] => none
  | c :: cs =>
    match digitVal? c with
    | some d => parseIntPart d cs
    | none => none

/-- Order on parsed price keys: `(n, k)` stands for `n / 10^k`, compared by
cross multiplication; `none` (unparseable) is the greatest element. -/
def keyLE : Option (Nat × Nat) → Option (Nat × Nat) → Bool
  | some (n1, k1), some (n2, k2) => n1 * 10 ^ k2 ≤ n2 * 10 ^ k1
  | some _, none => true
  | none, some _ => false
  | none, none => true

/-- Embeds the comparator of the sort in `CombinedProvider::search`
(combined.rs:80-84). -/
def priceLEb (a b : FlightOffer) : Bool :=
  keyLE (parsePrice a.price.total) (parsePrice b.price.total)

def priceLE (a b : FlightOffer) : Prop := priceLEb a b = true

instance : DecidableRel priceLE :=
  fun a b => inferInstanceAs (Decidable (priceLEb a b = true))

lemma cross_mul_trans {n1 k1 n2 k2 n3 k3 : Nat}
    (h12 : n1 * 10 ^ k2 ≤ n2 * 10 ^ k1) (h23 : n2 * 10 ^ k3 ≤ n3 * 10 ^ k2) :
    n1 * 10 ^ k3 ≤ n3 * 10 ^ k1 := by
  have key : n1 * 10 ^ k3 * 10 ^ k2 ≤ n3 * 10 ^ k1 * 10 ^ k2 := by
    calc n1 * 10 ^ k3 * 10 ^ k2 = n1 * 10 ^ k2 * 10 ^ k3 := by ring
      _ ≤ n2 * 10 ^ k1 * 10 ^ k3 := Nat.mul_le_mul_right _ h12
      _ = n2 * 10 ^ k3 * 10 ^ k1 := by ring
      _ ≤ n3 * 10 ^ k2 * 10 ^ k1 := Nat.mul_le_mul_right _ h23
      _ = n3 * 10 ^ k1 * 10 ^ k2 := by ring
  exact Nat.le_of_mul_le_mul_right key (Nat.pow_pos (by norm_num))

lemma keyLE_total (x y : Option (Nat × Nat)) : keyLE x y = true ∨ keyLE y x = true := by
  rcases x with _ | ⟨n1, k1⟩ <;> rcases y with _ | ⟨n2, k2⟩ <;> simp [keyLE]
  exact Nat.le_total _ _

lemma keyLE_trans (x y z : Option (Nat × Nat)) (h1 : keyLE x y = true)
    (h2 : keyLE y z = true) : keyLE x z = true := by
  rcases x with _ | ⟨n1, k1⟩ <;> rcases y with _ | ⟨n2, k2⟩ <;>
    rcases z with _ | ⟨n3, k3⟩ <;> simp [keyLE] at h1 h2 ⊢
  exact cross_mul_trans h1 h2

instance : IsTotal FlightOffer priceLE :=
  ⟨fun a b => keyLE_total (parsePrice a.price.total) (parsePrice b.price.total)⟩

instance : IsTrans FlightOffer priceLE :=
  ⟨fun a b c hab hbc =>
    keyLE_trans (parsePrice a.price.total) (parsePrice b.price.total)
      (parsePrice c.price.total) hab hbc⟩

/-- Embeds the sort of `CombinedProvider::search` (combined.rs:80-84).  The
source uses the standard stable slice sort with the price comparator; the
embedding uses insertion sort with the same comparator, whose output is
sorted and a permutation of the input like any comparison sort. -/
def sortByPrice (l : List FlightOffer) : List FlightOffer :=
  List.insertionSort priceLE l

/-- Embeds `CombinedProvider::search` (combined.rs:53-94).  `gds` is the
primary (GDS) result — the primary is always consulted; `ndc` is `none`
when no secondary provider is configured, otherwise the secondary's own
result, which the source flattens to `Some`/`None` on success/failure
(combined.rs:61-71). -/
def combinedSearch (gds : Except String FlightOffersResponse)
    (ndc : Option (Except String FlightOffersResponse)) :
    Except String FlightOffersResponse :=
  let ndcResult : Option FlightOffersResponse :=
    match ndc with
    | some (.ok r) => some r
    | some (.error _) => none
    | none => none
  match gds, ndcResult with
  | .ok g, some n => .ok { data := sortByPrice (g.data ++ n.data) }
  | .ok g, none => .ok g
  | .error _, some n => .ok n
  | .error e, none => .error e

/-- C10: the provider combinator's full outcome table.  On dual success the
result is the concatenation of both offer lists sorted ascending by total
price (a permutation of the concatenation, sorted under the price order
with unparseable prices greatest); on secondary failure or absence the
primary's offers are returned with no error; on primary failure with
secondary success the secondary's offers are returned; on dual failure the
primary's error is propagated.  The comparison is total (never panics), and
the concrete example primary [$500] with secondary [$300] yields
[$300, $500], with an unparseable price sorted last. -/
theorem C10_combined_provider (g n : FlightOffersResponse) (e en : String)
    (a b : FlightOffer) :
    (combinedSearch (.ok g) (some (.ok n))
        = .ok { data := sortByPrice (g.data ++ n.data) } ∧
      (sortByPrice (g.data ++ n.data)).Perm (g.data ++ n.data) ∧
      List.Sorted priceLE (sortByPrice (g.data ++ n.data))) ∧
    combinedSearch (.ok g) (some (.error en)) = .ok g ∧
    combinedSearch (.ok g) none = .ok g ∧
    combinedSearch (.error e) (some (.ok n)) = .ok n ∧
    combinedSearch (.error e) (some (.error en)) = .error e ∧
    combinedSearch (.error e) none = .error e ∧
    (priceLEb a b = true ∨ priceLEb b a = true) ∧
    combinedSearch
        (.ok { data := [{ id := "g1", price := { total := "500.00" } }] })
        (some (.ok { data := [{ id := "n1", price := { total := "300.00" } }] }))
      = .ok { data := [{ id := "n1", price := { total := "300.00" } },
                       { id := "g1", price := { total := "500.00" } }] } ∧
    sortByPrice [{ id := "u1", price := { total := "N/A" } },
                 { id := "n1", price := { total := "300.00" } }]
      = [{ id := "n1", price := { total := "300.00" } },
         { id := "u1", price := { total := "N/A" } }] :=
  ⟨⟨rfl, List.perm_insertionSort _ _, List.sorted_insertionSort _ _⟩,
    rfl, rfl, rfl, rfl, rfl,
    keyLE_total (parsePrice a.price.total) (parsePrice b.price.total),
    rfl, rfl⟩

theorem C5_witness :
    cacheKey { c5BaseRequest with
                currency := some "USD",
                max_price := none,
                included_airline_codes := none,
                excluded_airline_codes := none,
                additional_legs := none } = cacheKey c5BaseRequest ∧
    cacheKey c5BaseRequest = cacheKey c5BaseRequest :=
  ⟨(C5_amended c5BaseRequest c5BaseRequest (some "USD") none none none none).2.1,
   (C5_amended c5BaseRequest c5BaseRequest (some "USD") none none none none).1 rfl⟩
